import Mathlib

/-!
opipes: handshake, bridge and argument rewriter

A shallow embedding of `opipes/main.go` (package `opipes`) and `cmd/o/main.go`
(the `o` wrapper), followed by theorems about the embedded functions.

Conventions of the embedding:

* a Go `error` value is `Option GoError` (`none` is the nil error);
* a Go run-time panic is the `Except.error` side of `Except Panic _`;
* a `*WriterPipeInfo` is `WriterInfoPtr` (nil, or a pointer to a struct);
* a slice of strings is a `List String` (a nil slice and an empty slice are both `[]`);
* what the operating system, the network and the child process answer is passed
  in as an explicit environment record, and what the code does to them is
  returned as a list of events.
-/

namespace Opipes

deriving instance DecidableEq for Except

/-! ## Data model (`opipes/main.go`, lines 13-26, 77-91, 194-198) -/

/-- A non-nil Go `error` value. -/
structure GoError where
  msg : String
  deriving DecidableEq, Repr

/-- A Go run-time panic. -/
inductive Panic where
  | indexOutOfRange
  | error (e : GoError)
  deriving DecidableEq, Repr

/-- The type `*WriterPipeInfo`: nil, or a pointer to a struct with fields `Args` and `Next`. -/
inductive WriterInfoPtr where
  | nil
  | ptr (Args : List String) (Next : WriterInfoPtr)
  deriving DecidableEq, Repr

/-- The struct `WriterPipeInfo` as a value. -/
structure WriterPipeInfo where
  Args : List String
  Next : WriterInfoPtr
  deriving DecidableEq, Repr

/-- The address of a `WriterPipeInfo` value (`&writerPipeInfo`). -/
def WriterPipeInfo.addr (w : WriterPipeInfo) : WriterInfoPtr :=
  .ptr w.Args w.Next

/-- The struct `ReaderPipeInfo`. -/
structure ReaderPipeInfo where
  Address : String
  deriving DecidableEq, Repr

/-- A connected `net.Conn`, identified by the address it was opened on. -/
structure Conn where
  address : String
  deriving DecidableEq, Repr

/-- The struct `ReaderPipe`; `conn = none` is the nil interface value. -/
structure ReaderPipe where
  address : String
  writerPipeInfo : WriterPipeInfo
  conn : Option Conn
  deriving DecidableEq, Repr

/-- The `io.ReadCloser` values `NewPipe` builds: the inherited `os.Stdin` or a `*ReaderPipe`. -/
inductive Reader where
  | stdin
  | readerPipe (r : ReaderPipe)
  deriving DecidableEq, Repr

/-- The `io.WriteCloser` values `newWriterPipe` builds: `o.origStdout` or a `*WriterPipe`. -/
inductive Writer where
  | origStdout
  | writerPipe (conn : Conn)
  deriving DecidableEq, Repr

/-- The struct `OConfig`. -/
structure OConfig where
  ProgramName : String
  Args : List String
  deriving DecidableEq, Repr

/-- The struct `OPipes` (the session); `cleanupFuncs` and the `origStdout` file handle carry no
data the modelled functions inspect and are left out. -/
structure OPipes where
  ProgramName : String
  Args : List String
  stdinIsPipe : Bool
  stdoutIsPipe : Bool
  updatedIncomingPipe : Bool
  returnedStdout : Bool
  consumedStdin : Bool
  deriving DecidableEq, Repr

/-- The struct `OPipe`. -/
structure OPipe where
  Reader : Reader
  Writer : Writer
  WriterInfo : WriterInfoPtr
  deriving DecidableEq, Repr

/-- The list of `Args` met when following `Next` from a pointer until nil. -/
def WriterInfoPtr.toArgvs : WriterInfoPtr → List (List String)
  | .nil => []
  | .ptr Args Next => Args :: Next.toArgvs

/-- The linked chain with one node per argv, in order, ended by a nil `Next`. -/
def WriterInfoPtr.ofArgvs : List (List String) → WriterInfoPtr
  | [] => .nil
  | a :: rest => .ptr a (ofArgvs rest)

/-! ## Argument rewriter (`cmd/o/main.go`, lines 130-163) -/

/-- Go `strings.HasPrefix s p`. -/
def stringsHasPrefix (s p : String) : Bool :=
  p.data.isPrefixOf s.data

/-- The loop of `parseAwsLogFilter` (lines 145-161), started with the given values of the local
variables `res` and `canPushdownGrep`; `Args[0]` on an empty slice panics. -/
def parseAwsLogFilterLoop (res : String) (canPushdownGrep : Bool) :
    WriterInfoPtr → Except Panic String
  | .nil => .ok res
  | .ptr Args Next =>
    match Args.head? with
    | none => .error .indexOutOfRange
    | some arg0 =>
      if arg0 = "grep" && canPushdownGrep then
        if Args.length = 2 && !stringsHasPrefix (Args.getD 1 "") "-" then
          parseAwsLogFilterLoop (res ++ " " ++ Args.getD 1 "") canPushdownGrep Next
        else
          parseAwsLogFilterLoop res canPushdownGrep Next
      else
        parseAwsLogFilterLoop res false Next

/-- The method `OWrap.parseAwsLogFilter` (lines 142-163). -/
def parseAwsLogFilter (writerInfo : WriterInfoPtr) : Except Panic String :=
  parseAwsLogFilterLoop "" true writerInfo

/-- The loop of `replaceArgs` (lines 132-138) over the remaining elements of `state.args`, with
`res` the slice built so far. -/
def replaceArgsLoop (writerInfo : WriterInfoPtr) (res : List String) :
    List String → Except Panic (List String)
  | [] => .ok res
  | arg :: rest =>
    if arg = "{awsLogFilter}" then
      match parseAwsLogFilter writerInfo with
      | .error p => .error p
      | .ok filter => replaceArgsLoop writerInfo (res ++ [filter]) rest
    else
      replaceArgsLoop writerInfo (res ++ [arg]) rest

/-- The method `OWrap.replaceArgs` (lines 130-140); `args` is `state.args`. -/
def replaceArgs (args : List String) (writerInfo : WriterInfoPtr) : Except Panic (List String) :=
  replaceArgsLoop writerInfo [] args

/-! ## Reader endpoint (`opipes/main.go`, lines 28-52) -/

/-- What a `ReaderPipe` does to the network. -/
inductive ConnEvent where
  | dial (address : String) (succeeded : Bool)
  | writeDoc (doc : WriterPipeInfo)
  | connRead
  deriving DecidableEq, Repr

/-- The answers of the network to one `Read` call. `net.Dial` returns a nil `Conn` together with
its error. `json.Marshal` of a `WriterPipeInfo` (strings and an acyclic chain) does not fail. -/
structure ReadEnv where
  dialErr : Option GoError
  writeErr : Option GoError
  connRead : Nat × Option GoError
  deriving DecidableEq, Repr

/-- The result of one `Read` call: the endpoint afterwards, the returned pair, the events. -/
structure ReadResult where
  pipe : ReaderPipe
  ret : Nat × Option GoError
  events : List ConnEvent
  deriving DecidableEq, Repr

/-- The method `ReaderPipe.Read` (lines 28-52). -/
def Read (r : ReaderPipe) (env : ReadEnv) : ReadResult :=
  match r.conn with
  | none =>
    match env.dialErr with
    | some err => ⟨{ r with conn := none }, (0, some err), [.dial r.address false]⟩
    | none =>
      let r1 := { r with conn := some ⟨r.address⟩ }
      match env.writeErr with
      | some err => ⟨r1, (0, some err), [.dial r.address true, .writeDoc r.writerPipeInfo]⟩
      | none =>
        ⟨r1, env.connRead, [.dial r.address true, .writeDoc r.writerPipeInfo, .connRead]⟩
  | some _ => ⟨r, env.connRead, [.connRead]⟩

/-- A sequence of `Read` calls on one endpoint: the endpoint afterwards and the whole trace. -/
def readAll (r : ReaderPipe) : List ReadEnv → ReaderPipe × List ConnEvent
  | [] => (r, [])
  | env :: rest =>
    let step := Read r env
    let tail := readAll step.pipe rest
    (tail.1, step.events ++ tail.2)

/-- The events of a sequence of `Read` calls on one endpoint. -/
def readTrace (r : ReaderPipe) (envs : List ReadEnv) : List ConnEvent :=
  (readAll r envs).2

/-- Whether an event is a dial attempt. -/
def ConnEvent.isDial : ConnEvent → Bool
  | .dial _ _ => true
  | _ => false

/-- Whether an event is a dial attempt that succeeded. -/
def ConnEvent.isDialOk : ConnEvent → Bool
  | .dial _ ok => ok
  | _ => false

/-- Whether an event is the write of the handshake document. -/
def ConnEvent.isWriteDoc : ConnEvent → Bool
  | .writeDoc _ => true
  | _ => false

/-! ## Handshake engine (`opipes/main.go`, lines 95-247) -/

/-- The `slog` levels `Init` chooses between. -/
inductive Level where
  | debug
  | info
  | warn
  | error
  deriving DecidableEq, Repr

/-- The value of the local variable `level` after the switch of `Init` (lines 105-116), as a
function of `os.Getenv("OLOGLEVEL")`. A Go `case` with an empty body does nothing and does not
fall through. -/
def initLevel (ologlevel : String) : Level :=
  let level := Level.info
  if ologlevel = "debug" then Level.debug
  else if ologlevel = "info" then Level.info
  else if ologlevel = "warn" then level
  else if ologlevel = "warning" then Level.warn
  else if ologlevel = "error" then Level.error
  else level

/-- What `Init` reads from its process: the variable `OLOGLEVEL` (empty when unset) and, for each
of stdin and stdout, the outcome of `Stat` (an error, or whether the mode has `ModeNamedPipe`). -/
structure InitEnv where
  ologlevel : String
  stdinStat : Except GoError Bool
  stdoutStat : Except GoError Bool

/-- What `Init` yields: the session it returns, which is also the value of the global
`initialized` afterwards, and the level given to `slog.SetDefault` (none on the early return). -/
structure InitResult where
  session : OPipes
  level : Option Level
  deriving DecidableEq, Repr

/-- The function `Init` (lines 95-144); the first argument is the global `initialized`. -/
def Init (initialized : Option OPipes) (cfg : OConfig) (env : InitEnv) : Except Panic InitResult :=
  match initialized with
  | some o => .ok ⟨o, none⟩
  | none =>
    let o : OPipes := ⟨cfg.ProgramName, cfg.Args, false, false, false, false, false⟩
    let level := initLevel env.ologlevel
    match env.stdinStat with
    | .error err => .error (.error err)
    | .ok stdinIsPipe =>
      let o := { o with stdinIsPipe := stdinIsPipe }
      match env.stdoutStat with
      | .error err => .error (.error err)
      | .ok stdoutIsPipe => .ok ⟨{ o with stdoutIsPipe := stdoutIsPipe }, some level⟩

/-- What the handshake and the bridge do to the outside world. -/
inductive Event where
  | decodeStdin
  | listen (address : String)
  | sendAddress (msg : ReaderPipeInfo)
  | accept
  | decodeWriterInfo
  | closeListener
  | closeReader
  | closeWriter
  | start (argv : List String)
  | wait
  deriving DecidableEq, Repr

/-- The answers of the outside world to `newWriterPipe`: `XDG_RUNTIME_DIR`, `rand.Int()`, the
errors of `net.Listen`, of the write to `origStdout` and of `Accept`, and the outcome of decoding
one `WriterPipeInfo` document from the accepted connection. -/
structure WriterEnv where
  runDir : String
  randInt : Nat
  listenErr : Option GoError
  writeErr : Option GoError
  acceptErr : Option GoError
  decoded : Except GoError WriterPipeInfo

/-- The socket path of line 154: `fmt.Sprintf("%s/opipes-%d.sock", runDir, randInt)`. -/
def socketAddress (runDir : String) (randInt : Nat) : String :=
  runDir ++ "/opipes-" ++ toString randInt ++ ".sock"

/-- The method `OPipes.newWriterPipe` (lines 146-192): the returned `(writer, info, err)` triple
and the events. The deferred `listener.Close()` runs on every return after a successful listen.
`json.Marshal` of a `ReaderPipeInfo` does not fail. -/
def newWriterPipe (o : OPipes) (env : WriterEnv) :
    Except GoError (Writer × WriterInfoPtr) × List Event :=
  if !o.stdoutIsPipe then
    (.ok (.origStdout, .nil), [])
  else
    let address := socketAddress env.runDir env.randInt
    match env.listenErr with
    | some err => (.error err, [.listen address])
    | none =>
      let ourPipe : ReaderPipeInfo := ⟨address⟩
      match env.writeErr with
      | some err => (.error err, [.listen address, .sendAddress ourPipe, .closeListener])
      | none =>
        match env.acceptErr with
        | some err =>
          (.error err, [.listen address, .sendAddress ourPipe, .accept, .closeListener])
        | none =>
          match env.decoded with
          | .error err =>
            (.error err,
              [.listen address, .sendAddress ourPipe, .accept, .decodeWriterInfo, .closeListener])
          | .ok writerPipeInfo =>
            (.ok (.writerPipe ⟨address⟩, writerPipeInfo.addr),
              [.listen address, .sendAddress ourPipe, .accept, .decodeWriterInfo, .closeListener])

/-- The outcome of decoding one `ReaderPipeInfo` document from the inherited stdin. -/
inductive StdinDecode where
  | ok (info : ReaderPipeInfo)
  | eof
  | err (e : GoError)

/-- The answers of the outside world to `NewPipe`. -/
structure PipeEnv where
  stdinDecode : StdinDecode
  writer : WriterEnv

/-- What `NewPipe` yields: the session afterwards, the returned `(pipe, err)` pair (a nil pipe is
`none`), and the events. -/
structure NewPipeResult where
  session : OPipes
  ret : Except GoError (Option OPipe)
  events : List Event

/-- Lines 223-246 of `NewPipe`: the writer side and the construction of the result, given the
values of the local variables `reader` (none is nil) and `readerPipeInfo`. -/
def NewPipe.writerSide (o : OPipes) (reader : Option Reader) (readerPipeInfo : ReaderPipeInfo)
    (env : WriterEnv) : Except GoError (Option OPipe) × List Event :=
  match newWriterPipe o env with
  | (.error err, evs) =>
    (.error err, evs ++ (match reader with | some _ => [.closeReader] | none => []))
  | (.ok (writer, writerInfo), evs) =>
    let reader : Reader :=
      match reader with
      | some r => r
      | none => .readerPipe ⟨readerPipeInfo.Address, ⟨o.Args, writerInfo⟩, none⟩
    (.ok (some ⟨reader, writer, writerInfo⟩), evs)

/-- The method `OPipes.NewPipe` (lines 200-247). -/
def NewPipe (o : OPipes) (env : PipeEnv) : NewPipeResult :=
  if !o.stdinIsPipe then
    if o.consumedStdin then
      ⟨o, .ok none, []⟩
    else
      let o := { o with consumedStdin := true }
      let out := NewPipe.writerSide o (some .stdin) ⟨""⟩ env.writer
      ⟨o, out.1, out.2⟩
  else
    match env.stdinDecode with
    | .eof => ⟨o, .ok none, [.decodeStdin]⟩
    | .err err => ⟨o, .error err, [.decodeStdin]⟩
    | .ok readerPipeInfo =>
      let out := NewPipe.writerSide o none readerPipeInfo env.writer
      ⟨o, out.1, .decodeStdin :: out.2⟩

/-! ## Process bridge and entry point (`cmd/o/main.go`, lines 46-128) -/

/-- The state of the goroutine copying the reader into the child's stdin at the moment the
`select` of line 99 runs: still copying, or finished with the error of `io.Copy` (nil or not). -/
inductive CopyState where
  | notFinished
  | finished (err : Option GoError)
  deriving DecidableEq, Repr

/-- The first value a copy goroutine puts on its channel of capacity one (lines 71-75 and
82-86): the error of `io.Copy` when it is not nil, otherwise nil. -/
def copyDone (err : Option GoError) : Option GoError :=
  match err with
  | some e => some e
  | none => none

/-- The answers of the outside world to `runWrappedCmd`: the errors of `StdinPipe`, `StdoutPipe`,
`Start` and `Wait`, the error of the copy of the child's output into the writer, and the state of
the copy of the reader into the child's input. -/
structure BridgeEnv where
  stdinPipeErr : Option GoError
  stdoutPipeErr : Option GoError
  startErr : Option GoError
  waitErr : Option GoError
  stdoutCopy : Option GoError
  stdinCopy : CopyState
  deriving DecidableEq, Repr

/-- The method `OWrap.runWrappedCmd` (lines 46-106); `actualArgs` is `state.actualArgs`. The two
deferred closes run on every exit, the writer first. -/
def runWrappedCmd (actualArgs : List String) (env : BridgeEnv) :
    Except Panic (Option GoError) × List Event :=
  match actualArgs.head? with
  | none => (.error .indexOutOfRange, [.closeWriter, .closeReader])
  | some _ =>
    match env.stdinPipeErr with
    | some err => (.ok (some err), [.closeWriter, .closeReader])
    | none =>
      match env.stdoutPipeErr with
      | some err => (.ok (some err), [.closeWriter, .closeReader])
      | none =>
        match env.startErr with
        | some err => (.ok (some err), [.start actualArgs, .closeWriter, .closeReader])
        | none =>
          match env.waitErr with
          | some _ => (.ok none, [.start actualArgs, .wait, .closeWriter, .closeReader])
          | none =>
            match copyDone env.stdoutCopy with
            | some err =>
              (.ok (some err), [.start actualArgs, .wait, .closeWriter, .closeReader])
            | none =>
              match env.stdinCopy with
              | .finished err =>
                (.ok (copyDone err), [.start actualArgs, .wait, .closeWriter, .closeReader])
              | .notFinished =>
                (.ok none, [.start actualArgs, .wait, .closeWriter, .closeReader])

/-- The answers of the outside world to one `runCmd` call. -/
structure RunEnv where
  init : InitEnv
  pipe : PipeEnv
  bridge : BridgeEnv

/-- What `runCmd` yields: the global `initialized` afterwards, the returned error (or the panic),
and the events. -/
structure RunResult where
  initialized : Option OPipes
  ret : Except Panic (Option GoError)
  events : List Event
  deriving DecidableEq, Repr

/-- The method `OWrap.runCmd` (lines 108-128); `args` is `state.args` and `initialized` the
global of package `opipes`. -/
def runCmd (args : List String) (initialized : Option OPipes) (env : RunEnv) : RunResult :=
  if args.length = 0 then
    ⟨initialized, .ok (some ⟨"no command given"⟩), []⟩
  else
    match Init initialized ⟨args.headD "", args⟩ env.init with
    | .error p => ⟨initialized, .error p, []⟩
    | .ok init =>
      let out := NewPipe init.session env.pipe
      match out.ret with
      | .error err => ⟨some out.session, .ok (some err), out.events⟩
      | .ok none => ⟨some out.session, .ok none, out.events⟩
      | .ok (some pipe) =>
        match replaceArgs args pipe.WriterInfo with
        | .error p => ⟨some out.session, .error p, out.events⟩
        | .ok actualArgs =>
          let run := runWrappedCmd actualArgs env.bridge
          ⟨some out.session, run.1, out.events ++ run.2⟩

/-- A sequence of `NewPipe` calls on one session: the session afterwards and, per call, the
returned pair with the events of that call. -/
def newPipeAll (o : OPipes) :
    List PipeEnv → OPipes × List (Except GoError (Option OPipe) × List Event)
  | [] => (o, [])
  | env :: rest =>
    let out := NewPipe o env
    let tail := newPipeAll out.session rest
    (tail.1, (out.ret, out.events) :: tail.2)

/-! ## A linear pipeline of stages -/

/-- One stage of a pipeline: its argv and the value its `rand.Int()` returns. -/
structure Stage where
  argv : List String
  randInt : Nat
  deriving DecidableEq, Repr

/-- The answers to a `Read` call on which the dial, the write and the read succeed. -/
def ReadEnv.success : ReadEnv :=
  ⟨none, none, (0, none)⟩

/-- The document a reader puts on its connection at its first `Read` when the dial and the write
succeed; the inherited stdin sends none. -/
def sentDocument : Reader → Option WriterPipeInfo
  | .stdin => none
  | .readerPipe r =>
    (Read r ReadEnv.success).events.findSome? fun
      | .writeDoc doc => some doc
      | _ => none

/-- The session `Init` builds in a fresh process with the given argv and stdio kinds. -/
def stageSession (argv : List String) (stdinIsPipe stdoutIsPipe : Bool) : Except Panic InitResult :=
  Init none ⟨argv.headD "", argv⟩ ⟨"", .ok stdinIsPipe, .ok stdoutIsPipe⟩

/-- What a stage decodes from the connection it accepted: the document the reader of its right
neighbour sends, when that neighbour obtained a pipe whose reader sends one. -/
def decodedFrom (down : List (Option NewPipeResult)) : Except GoError WriterPipeInfo :=
  match down.head? with
  | some (some ⟨_, .ok (some pipe), _⟩) =>
    match sentDocument pipe.Reader with
    | some doc => .ok doc
    | none => .error ⟨"EOF"⟩
  | _ => .error ⟨"EOF"⟩

/-- The `NewPipe` call of one stage in a fresh process: `upstream` is the address announced on
its stdin (none when stdin is not a pipe), `last` tells that its stdout is not a pipe, `decoded`
is what it decodes from the accepted connection; listen, write and accept succeed. -/
def stageNewPipe (runDir : String) (upstream : Option String) (st : Stage) (last : Bool)
    (decoded : Except GoError WriterPipeInfo) : Option NewPipeResult :=
  let stdinDecode : StdinDecode :=
    match upstream with
    | some a => .ok ⟨a⟩
    | none => .eof
  match stageSession st.argv upstream.isSome (!last) with
  | .error _ => none
  | .ok init =>
    some (NewPipe init.session ⟨stdinDecode, ⟨runDir, st.randInt, none, none, none, decoded⟩⟩)

/-- The `NewPipe` result of every stage of a linear pipeline in which all network operations
succeed. `upstream` is the socket address the stage to the left of the first stage announced, or
none when the stdin of the first stage is not a pipe; only the stdout of the last stage is not a
pipe. Each stage decodes from its accepted connection the document the reader of the stage to
its right sends. -/
def pipelineFrom (runDir : String) : Option String → List Stage → List (Option NewPipeResult)
  | _, [] => []
  | upstream, st :: rest =>
    let down := pipelineFrom runDir (some (socketAddress runDir st.randInt)) rest
    stageNewPipe runDir upstream st rest.isEmpty (decodedFrom down) :: down

/-- The pipeline whose first stage reads from something that is not a pipe. -/
def pipeline (runDir : String) (stages : List Stage) : List (Option NewPipeResult) :=
  pipelineFrom runDir none stages

/-- The answers of the outside world to the `runCmd` of one stage in a fresh process: those
`stageNewPipe` gives to `Init` and `NewPipe`, and the answers `bridge` of the child process. -/
def stageRunEnv (runDir : String) (upstream : Option String) (st : Stage) (last : Bool)
    (decoded : Except GoError WriterPipeInfo) (bridge : BridgeEnv) : RunEnv :=
  ⟨⟨"", .ok upstream.isSome, .ok (!last)⟩,
    ⟨match upstream with
      | some a => .ok ⟨a⟩
      | none => .eof,
      ⟨runDir, st.randInt, none, none, none, decoded⟩⟩,
    bridge⟩

/-- The `runCmd` call of every stage of the linear pipeline of `pipelineFrom`, each in its own
fresh process (global `initialized` nil) with `state.args` its argv; `bridge` gives the answers
of the child process of each stage. -/
def pipelineRunFrom (runDir : String) (bridge : Stage → BridgeEnv) :
    Option String → List Stage → List RunResult
  | _, [] => []
  | upstream, st :: rest =>
    let address := socketAddress runDir st.randInt
    let down := pipelineFrom runDir (some address) rest
    runCmd st.argv none
        (stageRunEnv runDir upstream st rest.isEmpty (decodedFrom down) (bridge st))
      :: pipelineRunFrom runDir bridge (some address) rest

/-- The `runCmd` calls of the pipeline whose first stage reads from something that is not a
pipe. -/
def pipelineRun (runDir : String) (bridge : Stage → BridgeEnv) (stages : List Stage) :
    List RunResult :=
  pipelineRunFrom runDir bridge none stages

/-! ## The pushdown rule in the words of the specification -/

/-- A node is a pushable grep when it is exactly a two-token invocation of `grep` whose second
token does not begin with `-`. -/
def isPushableGrep (args : List String) : Bool :=
  match args with
  | [cmd, lit] => cmd = "grep" && !stringsHasPrefix lit "-"
  | _ => false

/-- The filter of the specification: the concatenation of a space and the second token over the
nodes that precede the first node that is not a pushable grep. -/
def filterUpToFirstStop : List (List String) → String
  | [] => ""
  | args :: rest =>
    if isPushableGrep args then " " ++ args.getD 1 "" ++ filterUpToFirstStop rest else ""

/-! ## Theorems -/

/-! ### Helper lemmas on the argument rewriter -/

theorem parseAwsLogFilterLoop_ok_or_panic (chain : WriterInfoPtr) :
    ∀ (res : String) (can : Bool),
      (∃ s, parseAwsLogFilterLoop res can chain = .ok s) ∨
        parseAwsLogFilterLoop res can chain = .error .indexOutOfRange := by
  induction chain with
  | nil => intro res can; exact Or.inl ⟨res, rfl⟩
  | ptr Args Next ih =>
    intro res can
    cases Args with
    | nil => exact Or.inr rfl
    | cons a0 tl =>
      simp only [parseAwsLogFilterLoop, List.head?_cons]
      split
      · split
        · exact ih _ _
        · exact ih _ _
      · exact ih _ _

theorem parseAwsLogFilterLoop_panic_iff (chain : WriterInfoPtr) :
    ∀ (res : String) (can : Bool),
      parseAwsLogFilterLoop res can chain = .error .indexOutOfRange ↔ [] ∈ chain.toArgvs := by
  induction chain with
  | nil => intro res can; simp [parseAwsLogFilterLoop, WriterInfoPtr.toArgvs]
  | ptr Args Next ih =>
    intro res can
    cases Args with
    | nil => simp [parseAwsLogFilterLoop, WriterInfoPtr.toArgvs]
    | cons a0 tl =>
      simp only [parseAwsLogFilterLoop, List.head?_cons, WriterInfoPtr.toArgvs, List.mem_cons]
      have hne : ¬ (([] : List String) = a0 :: tl) := by simp
      split
      · split
        · rw [ih]; simp
        · rw [ih]; simp
      · rw [ih]; simp

theorem parseAwsLogFilter_ok_of_nonempty (chain : WriterInfoPtr)
    (h : ∀ a ∈ chain.toArgvs, a ≠ []) : ∃ s, parseAwsLogFilter chain = .ok s := by
  rcases parseAwsLogFilterLoop_ok_or_panic chain "" true with hok | hpanic
  · exact hok
  · exact absurd rfl (h [] ((parseAwsLogFilterLoop_panic_iff chain "" true).1 hpanic))

theorem replaceArgsLoop_eq_map (chain : WriterInfoPtr) (filter : String)
    (hf : parseAwsLogFilter chain = .ok filter) (args : List String) :
    ∀ res : List String,
      replaceArgsLoop chain res args
        = .ok (res ++ args.map fun arg => if arg = "{awsLogFilter}" then filter else arg) := by
  induction args with
  | nil => intro res; simp [replaceArgsLoop]
  | cons arg rest ih =>
    intro res
    by_cases harg : arg = "{awsLogFilter}"
    · simp [replaceArgsLoop, harg, hf, ih]
    · simp [replaceArgsLoop, harg, ih]

theorem replaceArgsLoop_no_placeholder (chain : WriterInfoPtr) (args : List String)
    (h : "{awsLogFilter}" ∉ args) :
    ∀ res : List String, replaceArgsLoop chain res args = .ok (res ++ args) := by
  induction args with
  | nil => intro res; simp [replaceArgsLoop]
  | cons arg rest ih =>
    intro res
    have harg : ¬ arg = "{awsLogFilter}" := fun e => h (by simp [e])
    have hrest : "{awsLogFilter}" ∉ rest := fun m => h (List.mem_cons_of_mem _ m)
    simp [replaceArgsLoop, harg, ih hrest]

theorem runWrappedCmd_in_bounds (actualArgs : List String) (env : BridgeEnv)
    (h : actualArgs ≠ []) : (runWrappedCmd actualArgs env).1 ≠ .error .indexOutOfRange := by
  cases actualArgs with
  | nil => exact absurd rfl h
  | cons a rest =>
    simp only [runWrappedCmd, List.head?_cons]
    repeat' split
    all_goals simp

/-! ### Filter pushdown -/

/-- C2: for every `x` that does not start with `-` and every `y` that does, the chain
`[[grep, x]]` gives the filter `" " ++ x`, the chain `[[grep, y]]` gives the empty filter, and
the chain `[[grep, x], [grep, y]]` gives `" " ++ x`: the unsupported later node does not retract
what the earlier node contributed. -/
theorem parseAwsLogFilter_pushdown_shapes (x y : String)
    (hx : stringsHasPrefix x "-" = false) (hy : stringsHasPrefix y "-" = true) :
    parseAwsLogFilter (.ofArgvs [["grep", x]]) = .ok (" " ++ x) ∧
      parseAwsLogFilter (.ofArgvs [["grep", y]]) = .ok "" ∧
      parseAwsLogFilter (.ofArgvs [["grep", x], ["grep", y]]) = .ok (" " ++ x) := by
  have hcat : "" ++ " " ++ x = " " ++ x := by
    apply String.ext
    simp
  refine ⟨?_, ?_, ?_⟩
  · simp [parseAwsLogFilter, WriterInfoPtr.ofArgvs, parseAwsLogFilterLoop, hx, hcat]
  · simp [parseAwsLogFilter, WriterInfoPtr.ofArgvs, parseAwsLogFilterLoop, hy]
  · simp [parseAwsLogFilter, WriterInfoPtr.ofArgvs, parseAwsLogFilterLoop, hx, hy, hcat]

/-- C2 at the inputs the specification names: `[[grep, ERROR]]` gives `" ERROR"`,
`[[grep, -c]]` gives the empty filter and `[[grep, ERROR], [grep, -c]]` gives `" ERROR"`. -/
theorem parseAwsLogFilter_pushdown_shapes_witness :
    stringsHasPrefix "ERROR" "-" = false ∧ stringsHasPrefix "-c" "-" = true ∧
      parseAwsLogFilter (.ofArgvs [["grep", "ERROR"]]) = .ok " ERROR" ∧
      parseAwsLogFilter (.ofArgvs [["grep", "-c"]]) = .ok "" ∧
      parseAwsLogFilter (.ofArgvs [["grep", "ERROR"], ["grep", "-c"]]) = .ok " ERROR" :=
  ⟨by decide, by decide, parseAwsLogFilter_pushdown_shapes "ERROR" "-c" (by decide) (by decide)⟩

/-- C3 at the chain `[[grep, -v], [grep, ERROR]]`: the first node is a grep of an unsupported
shape, so the filter of the specification is empty, yet `parseAwsLogFilter` returns `" ERROR"`:
the unsupported grep does not clear `canPushdownGrep` and the later node still contributes. -/
theorem parseAwsLogFilter_resumes_after_unsupported_grep :
    parseAwsLogFilter (.ofArgvs [["grep", "-v"], ["grep", "ERROR"]]) = .ok " ERROR" ∧
      filterUpToFirstStop [["grep", "-v"], ["grep", "ERROR"]] = "" ∧
      parseAwsLogFilter (.ofArgvs [["grep", "-v"], ["grep", "ERROR"]])
        ≠ .ok (filterUpToFirstStop [["grep", "-v"], ["grep", "ERROR"]]) := by
  decide

/-! ### Placeholder substitution -/

/-- C4: for every argv and every chain whose nodes all have a non-empty argv, `replaceArgs`
returns a list of the length of argv whose elements are the filter of the chain where argv has
the placeholder and the element of argv elsewhere; an argv without the placeholder comes back
unchanged and a non-empty argv gives a non-empty result, on which the `actualArgs[0]` of
`runWrappedCmd` does not panic. -/
theorem replaceArgs_substitutes (args : List String) (chain : WriterInfoPtr)
    (hchain : ∀ a ∈ chain.toArgvs, a ≠ []) :
    ∃ (filter : String) (res : List String),
      parseAwsLogFilter chain = .ok filter ∧
      replaceArgs args chain = .ok res ∧
      res.length = args.length ∧
      (∀ i : Nat, i < args.length →
        res[i]? = (args[i]?).map fun arg => if arg = "{awsLogFilter}" then filter else arg) ∧
      ("{awsLogFilter}" ∉ args → res = args) ∧
      (args ≠ [] → res ≠ []) ∧
      (args ≠ [] → ∀ env : BridgeEnv, (runWrappedCmd res env).1 ≠ .error .indexOutOfRange) := by
  obtain ⟨filter, hf⟩ := parseAwsLogFilter_ok_of_nonempty chain hchain
  refine ⟨filter, args.map fun arg => if arg = "{awsLogFilter}" then filter else arg, hf, ?_, ?_,
    ?_, ?_, ?_, ?_⟩
  · simpa [replaceArgs] using replaceArgsLoop_eq_map chain filter hf args []
  · simp
  · intro i _
    simp
  · intro hno
    have h1 := replaceArgsLoop_no_placeholder chain args hno []
    have h2 := replaceArgsLoop_eq_map chain filter hf args []
    rw [h1] at h2
    simpa using (Except.ok.inj h2).symm
  · intro hne
    simpa using hne
  · intro hne env
    apply runWrappedCmd_in_bounds
    simpa using hne

/-- C4 at argv `[aws, {awsLogFilter}, x, {awsLogFilter}]` and chain `[[grep, ERROR]]`: both
placeholders become `" ERROR"` and the other tokens stay. -/
theorem replaceArgs_substitutes_witness :
    (∀ a ∈ (WriterInfoPtr.ofArgvs [["grep", "ERROR"]]).toArgvs, a ≠ []) ∧
      (∃ (filter : String) (res : List String),
        parseAwsLogFilter (.ofArgvs [["grep", "ERROR"]]) = .ok filter ∧
        replaceArgs ["aws", "{awsLogFilter}", "x", "{awsLogFilter}"] (.ofArgvs [["grep", "ERROR"]])
          = .ok res ∧
        res.length = ["aws", "{awsLogFilter}", "x", "{awsLogFilter}"].length ∧
        (∀ i : Nat, i < ["aws", "{awsLogFilter}", "x", "{awsLogFilter}"].length →
          res[i]? = (["aws", "{awsLogFilter}", "x", "{awsLogFilter}"][i]?).map
            fun arg => if arg = "{awsLogFilter}" then filter else arg) ∧
        ("{awsLogFilter}" ∉ ["aws", "{awsLogFilter}", "x", "{awsLogFilter}"] → res
          = ["aws", "{awsLogFilter}", "x", "{awsLogFilter}"]) ∧
        (["aws", "{awsLogFilter}", "x", "{awsLogFilter}"] ≠ [] → res ≠ []) ∧
        (["aws", "{awsLogFilter}", "x", "{awsLogFilter}"] ≠ [] →
          ∀ env : BridgeEnv, (runWrappedCmd res env).1 ≠ .error .indexOutOfRange)) ∧
      replaceArgs ["aws", "{awsLogFilter}", "x", "{awsLogFilter}"] (.ofArgvs [["grep", "ERROR"]])
        = .ok ["aws", " ERROR", "x", " ERROR"] :=
  ⟨by decide,
    replaceArgs_substitutes ["aws", "{awsLogFilter}", "x", "{awsLogFilter}"]
      (.ofArgvs [["grep", "ERROR"]]) (by decide),
    by decide⟩

/-! ### Totality of the filter walk -/

/-- C10: for every chain, whatever the values of `res` and `canPushdownGrep` the walk is entered
with, the walk ends either with a filter or with an index-out-of-range panic; it panics exactly
when some node of the chain has an empty `Args` (so also behind a node that stopped the
accumulation), and it returns a filter exactly when every node has a non-empty `Args`. The chain
of the payload with empty args and null next panics, and `newWriterPipe` hands that chain over
when it decodes that payload. -/
theorem parseAwsLogFilter_total_iff_nonempty (chain : WriterInfoPtr) :
    (∀ (res : String) (can : Bool),
      ((∃ s, parseAwsLogFilterLoop res can chain = .ok s) ∨
        parseAwsLogFilterLoop res can chain = .error .indexOutOfRange) ∧
      (parseAwsLogFilterLoop res can chain = .error .indexOutOfRange ↔ [] ∈ chain.toArgvs) ∧
      ((∃ s, parseAwsLogFilterLoop res can chain = .ok s) ↔ ∀ a ∈ chain.toArgvs, a ≠ [])) ∧
    (parseAwsLogFilter chain = .error .indexOutOfRange ↔ [] ∈ chain.toArgvs) ∧
    ((∃ s, parseAwsLogFilter chain = .ok s) ↔ ∀ a ∈ chain.toArgvs, a ≠ []) ∧
    parseAwsLogFilter (.ptr [] .nil) = .error .indexOutOfRange ∧
    parseAwsLogFilter (.ofArgvs [["cat"], ["grep", "x"], []]) = .error .indexOutOfRange ∧
    (∀ (o : OPipes) (runDir : String) (randInt : Nat), o.stdoutIsPipe = true →
      ((newWriterPipe o ⟨runDir, randInt, none, none, none, .ok ⟨[], .nil⟩⟩).1.map
        fun out => out.2) = .ok (.ptr [] .nil)) := by
  have key : ∀ (res : String) (can : Bool),
      ((∃ s, parseAwsLogFilterLoop res can chain = .ok s) ↔ ∀ a ∈ chain.toArgvs, a ≠ []) := by
    intro res can
    constructor
    · rintro ⟨s, hs⟩ a ha rfl
      have := (parseAwsLogFilterLoop_panic_iff chain res can).2 ha
      rw [hs] at this
      cases this
    · intro hall
      rcases parseAwsLogFilterLoop_ok_or_panic chain res can with hok | hpanic
      · exact hok
      · exact absurd rfl (hall [] ((parseAwsLogFilterLoop_panic_iff chain res can).1 hpanic))
  refine ⟨fun res can => ⟨parseAwsLogFilterLoop_ok_or_panic chain res can,
    parseAwsLogFilterLoop_panic_iff chain res can, key res can⟩,
    parseAwsLogFilterLoop_panic_iff chain "" true, key "" true, by decide, by decide, ?_⟩
  intro o runDir randInt ho
  simp [newWriterPipe, ho, WriterPipeInfo.addr, Except.map]

/-! ### Result of the bridge -/

/-- C5 as stated fails: with a child that exits with a failure status and an output copy that
failed with `broken pipe`, `runWrappedCmd` returns nil, not the error of the output copy. -/
theorem runWrappedCmd_output_error_lost_on_child_failure :
    (runWrappedCmd ["false"]
        ⟨none, none, none, some ⟨"exit status 1"⟩, some ⟨"broken pipe"⟩, .notFinished⟩).1
      = .ok none ∧
    ¬ (∀ (actualArgs : List String) (env : BridgeEnv) (e : GoError),
        actualArgs ≠ [] → env.stdinPipeErr = none → env.stdoutPipeErr = none →
        env.startErr = none → env.stdoutCopy = some e →
        (runWrappedCmd actualArgs env).1 = .ok (some e)) := by
  refine ⟨by decide, fun h => ?_⟩
  have h1 := h ["false"]
    ⟨none, none, none, some ⟨"exit status 1"⟩, some ⟨"broken pipe"⟩, .notFinished⟩
    ⟨"broken pipe"⟩ (by decide) rfl rfl rfl rfl
  revert h1
  decide

/-- C5, amended: after a successful spawn, when `Wait` reports no error and the copy of the
child's output into the writer failed with `e`, `runWrappedCmd` returns `e`, whatever the state
of the copy into the child's input. -/
theorem runWrappedCmd_surfaces_output_error (actualArgs : List String) (env : BridgeEnv)
    (e : GoError) (hargs : actualArgs ≠ []) (hin : env.stdinPipeErr = none)
    (hout : env.stdoutPipeErr = none) (hstart : env.startErr = none)
    (hwait : env.waitErr = none) (hcopy : env.stdoutCopy = some e) :
    (runWrappedCmd actualArgs env).1 = .ok (some e) := by
  cases actualArgs with
  | nil => exact absurd rfl hargs
  | cons a rest => simp [runWrappedCmd, hin, hout, hstart, hwait, hcopy, copyDone]

/-- C5, amended, at a child that exits with status zero while the output copy fails with
`broken pipe` and the input copy has itself failed. -/
theorem runWrappedCmd_surfaces_output_error_witness :
    (runWrappedCmd ["cat"]
        ⟨none, none, none, none, some ⟨"broken pipe"⟩, .finished (some ⟨"closed"⟩)⟩).1
      = .ok (some ⟨"broken pipe"⟩) :=
  runWrappedCmd_surfaces_output_error ["cat"]
    ⟨none, none, none, none, some ⟨"broken pipe"⟩, .finished (some ⟨"closed"⟩)⟩ ⟨"broken pipe"⟩
    (by decide) rfl rfl rfl rfl rfl

/-- C6: after a successful spawn, whenever `Wait` reports an error, `runWrappedCmd` returns nil,
for every outcome of the two copy directions. -/
theorem runWrappedCmd_nil_on_child_failure (actualArgs : List String) (env : BridgeEnv)
    (e : GoError) (hargs : actualArgs ≠ []) (hin : env.stdinPipeErr = none)
    (hout : env.stdoutPipeErr = none) (hstart : env.startErr = none)
    (hwait : env.waitErr = some e) :
    (runWrappedCmd actualArgs env).1 = .ok none := by
  cases actualArgs with
  | nil => exact absurd rfl hargs
  | cons a rest => simp [runWrappedCmd, hin, hout, hstart, hwait]

/-- C6 at a child that exits with status one while both copies have failed. -/
theorem runWrappedCmd_nil_on_child_failure_witness :
    (runWrappedCmd ["grep", "x"]
        ⟨none, none, none, some ⟨"exit status 1"⟩, some ⟨"EPIPE"⟩, .finished (some ⟨"EIO"⟩)⟩).1
      = .ok none :=
  runWrappedCmd_nil_on_child_failure ["grep", "x"]
    ⟨none, none, none, some ⟨"exit status 1"⟩, some ⟨"EPIPE"⟩, .finished (some ⟨"EIO"⟩)⟩
    ⟨"exit status 1"⟩ (by decide) rfl rfl rfl rfl

/-! ### Log level -/

/-- C9: a first `Init` whose `Stat` calls succeed installs the level `initLevel` computes from
`OLOGLEVEL`; that level is Debug for `debug`, Info for `info`, Error for `error`, Info for every
value outside the five recognised spellings (the empty value of an unset variable included),
Warn for `warning` and the default Info for `warn`. -/
theorem initLevel_table :
    (∀ (cfg : OConfig) (v : String) (stdinIsPipe stdoutIsPipe : Bool),
      (Init none cfg ⟨v, .ok stdinIsPipe, .ok stdoutIsPipe⟩).map (fun r => r.level)
        = .ok (some (initLevel v))) ∧
    initLevel "debug" = .debug ∧
    initLevel "info" = .info ∧
    initLevel "error" = .error ∧
    (∀ v : String, v ∉ ["debug", "info", "warn", "warning", "error"] → initLevel v = .info) ∧
    initLevel "" = .info ∧
    initLevel "warning" = .warn ∧
    initLevel "warn" = .info := by
  refine ⟨fun cfg v a b => rfl, by decide, by decide, by decide, ?_, by decide, by decide,
    by decide⟩
  intro v hv
  simp only [List.mem_cons, List.mem_singleton, List.not_mem_nil, or_false, not_or] at hv
  obtain ⟨h1, h2, h3, h4, h5⟩ := hv
  simp [initLevel, h1, h2, h3, h4, h5]

/-- C9 at the unrecognised value `trace`, which leaves the level at Info. -/
theorem initLevel_table_witness :
    "trace" ∉ ["debug", "info", "warn", "warning", "error"] ∧ initLevel "trace" = .info :=
  ⟨by decide, initLevel_table.2.2.2.2.1 "trace" (by decide)⟩

/-! ### The consumed-stdin guard -/

theorem NewPipe_of_consumed (o : OPipes) (hpipe : o.stdinIsPipe = false)
    (hcons : o.consumedStdin = true) (env : PipeEnv) : NewPipe o env = ⟨o, .ok none, []⟩ := by
  simp [NewPipe, hpipe, hcons]

theorem NewPipe_keeps_consumed (o : OPipes) (env : PipeEnv) (hcons : o.consumedStdin = true) :
    (NewPipe o env).session.consumedStdin = true := by
  cases hp : o.stdinIsPipe
  · simp [NewPipe, hp, hcons]
  · cases hd : env.stdinDecode <;> simp [NewPipe, hp, hd, hcons]

theorem newPipeAll_of_consumed (o : OPipes) (hpipe : o.stdinIsPipe = false)
    (hcons : o.consumedStdin = true) (envs : List PipeEnv) :
    newPipeAll o envs = (o, envs.map fun _ => (.ok none, [])) := by
  induction envs with
  | nil => rfl
  | cons env rest ih => simp [newPipeAll, NewPipe_of_consumed o hpipe hcons, ih]

/-- C7: on a session whose stdin is not a pipe and whose `consumedStdin` is false, for every
outcome of the writer side, the first `NewPipe` sets `consumedStdin` and changes nothing else;
when `newWriterPipe` succeeds it returns a pipe whose reader is the inherited stdin; every later
`NewPipe` on the session returns a nil pipe and a nil error with no event at all and leaves the
session as it is; `runCmd` on that session returns nil with no event, so starts no command; and
neither `NewPipe`, `Init` nor `runCmd` turns a set `consumedStdin` back to false. -/
theorem NewPipe_consumes_stdin_once (o : OPipes) (env : PipeEnv)
    (hpipe : o.stdinIsPipe = false) (hcons : o.consumedStdin = false) :
    (NewPipe o env).session = { o with consumedStdin := true } ∧
    (NewPipe o env).session.consumedStdin = true ∧
    (∀ (writer : Writer) (info : WriterInfoPtr),
      (newWriterPipe { o with consumedStdin := true } env.writer).1 = .ok (writer, info) →
      (NewPipe o env).ret = .ok (some ⟨.stdin, writer, info⟩)) ∧
    (∀ later : PipeEnv,
      NewPipe (NewPipe o env).session later = ⟨(NewPipe o env).session, .ok none, []⟩) ∧
    (∀ later : List PipeEnv,
      newPipeAll (NewPipe o env).session later
        = ((NewPipe o env).session, later.map fun _ => (.ok none, []))) ∧
    (∀ (args : List String) (renv : RunEnv), args ≠ [] →
      runCmd args (some (NewPipe o env).session) renv
        = ⟨some (NewPipe o env).session, .ok none, []⟩) ∧
    (∀ (s : OPipes) (e : PipeEnv), s.consumedStdin = true →
      (NewPipe s e).session.consumedStdin = true) ∧
    (∀ (s : OPipes) (cfg : OConfig) (e : InitEnv), Init (some s) cfg e = .ok ⟨s, none⟩) ∧
    (∀ (s : OPipes) (args : List String) (renv : RunEnv), s.consumedStdin = true →
      ∃ s2, (runCmd args (some s) renv).initialized = some s2 ∧ s2.consumedStdin = true) := by
  have hsess : (NewPipe o env).session = { o with consumedStdin := true } := by
    simp [NewPipe, hpipe, hcons]
  have hp1 : (NewPipe o env).session.stdinIsPipe = false := by rw [hsess]; exact hpipe
  have hc1 : (NewPipe o env).session.consumedStdin = true := by rw [hsess]
  refine ⟨hsess, hc1, ?_, fun later => NewPipe_of_consumed _ hp1 hc1 later,
    fun later => newPipeAll_of_consumed _ hp1 hc1 later, ?_,
    fun s e hs => NewPipe_keeps_consumed s e hs, fun s cfg e => rfl, ?_⟩
  · intro writer info hw
    simp only [hpipe] at hw
    simp [NewPipe, hpipe, hcons, NewPipe.writerSide]
    split
    · rename_i err evs heq
      rw [heq] at hw
      cases hw
    · rename_i w i evs heq
      rw [heq] at hw
      cases hw
      rfl
  · intro args renv hargs
    have hlen : ¬ args.length = 0 := by
      cases args with
      | nil => exact absurd rfl hargs
      | cons a rest => simp
    simp [runCmd, hlen, Init, NewPipe_of_consumed _ hp1 hc1]
  · intro s args renv hs
    unfold runCmd
    split
    · exact ⟨s, rfl, hs⟩
    · simp only [Init]
      split
      · exact ⟨_, rfl, NewPipe_keeps_consumed s _ hs⟩
      · exact ⟨_, rfl, NewPipe_keeps_consumed s _ hs⟩
      · split
        · exact ⟨_, rfl, NewPipe_keeps_consumed s _ hs⟩
        · exact ⟨_, rfl, NewPipe_keeps_consumed s _ hs⟩

/-- C7 at the session of `o cat` started from a terminal with its stdout on a terminal: the
first `NewPipe` returns the inherited stdin and the original stdout, the second returns nil. -/
theorem NewPipe_consumes_stdin_once_witness :
    (NewPipe ⟨"cat", ["cat"], false, false, false, false, false⟩
        ⟨.eof, ⟨"/run", 7, none, none, none, .error ⟨"EOF"⟩⟩⟩).ret
      = .ok (some ⟨.stdin, .origStdout, .nil⟩) ∧
    (NewPipe
        (NewPipe ⟨"cat", ["cat"], false, false, false, false, false⟩
          ⟨.eof, ⟨"/run", 7, none, none, none, .error ⟨"EOF"⟩⟩⟩).session
        ⟨.eof, ⟨"/run", 8, none, none, none, .error ⟨"EOF"⟩⟩⟩).ret
      = .ok none :=
  have h := NewPipe_consumes_stdin_once ⟨"cat", ["cat"], false, false, false, false, false⟩
    ⟨.eof, ⟨"/run", 7, none, none, none, .error ⟨"EOF"⟩⟩⟩ rfl rfl
  ⟨h.2.2.1 .origStdout .nil rfl,
    congrArg NewPipeResult.ret (h.2.2.2.1 ⟨.eof, ⟨"/run", 8, none, none, none, .error ⟨"EOF"⟩⟩⟩)⟩

/-! ### The lazy connection of the reader endpoint -/

theorem readTrace_connected (r : ReaderPipe) (c : Conn) (h : r.conn = some c)
    (envs : List ReadEnv) : readTrace r envs = List.replicate envs.length .connRead := by
  induction envs with
  | nil => rfl
  | cons env rest ih =>
    have hstep : Read r env = ⟨r, env.connRead, [.connRead]⟩ := by simp [Read, h]
    simp only [readTrace, readAll, hstep] at ih ⊢
    rw [ih]
    rfl

theorem readTrace_dial_failed (r : ReaderPipe) (h : r.conn = none) (env : ReadEnv)
    (err : GoError) (hd : env.dialErr = some err) (rest : List ReadEnv) :
    readTrace r (env :: rest) = .dial r.address false :: readTrace r rest := by
  have hr : ({ r with conn := none } : ReaderPipe) = r := by
    cases r
    simp at h
    simp [h]
  simp [readTrace, readAll, Read, h, hd, hr]

theorem readTrace_dial_succeeded (r : ReaderPipe) (h : r.conn = none) (env : ReadEnv)
    (hd : env.dialErr = none) (rest : List ReadEnv) :
    ∃ m, readTrace r (env :: rest)
      = .dial r.address true :: .writeDoc r.writerPipeInfo :: List.replicate m .connRead := by
  cases hw : env.writeErr with
  | some err =>
    refine ⟨rest.length, ?_⟩
    have := readTrace_connected { r with conn := some ⟨r.address⟩ } ⟨r.address⟩ rfl rest
    simp only [readTrace] at this
    simp [readTrace, readAll, Read, h, hd, hw, this]
  | none =>
    refine ⟨rest.length + 1, ?_⟩
    have := readTrace_connected { r with conn := some ⟨r.address⟩ } ⟨r.address⟩ rfl rest
    simp only [readTrace] at this
    simp [readTrace, readAll, Read, h, hd, hw, this, List.replicate_succ]

theorem NewPipe_reader_not_connected (o : OPipes) (env : PipeEnv) (pipe : OPipe)
    (rp : ReaderPipe) (hret : (NewPipe o env).ret = .ok (some pipe))
    (hreader : pipe.Reader = .readerPipe rp) : rp.conn = none := by
  unfold NewPipe at hret
  split at hret
  · split at hret
    · cases hret
    · simp only [NewPipe.writerSide] at hret
      split at hret
      · cases hret
      · cases hret
        cases hreader
  · split at hret
    · cases hret
    · cases hret
    · simp only [NewPipe.writerSide] at hret
      split at hret
      · cases hret
      · cases hret
        cases hreader
        rfl

/-- C8 as stated fails: two `Read` calls on a fresh endpoint whose dials both fail make two
connection attempts, so the number of dials over the lifetime is not bounded by one. -/
theorem readTrace_redials_after_failed_dial :
    readTrace ⟨"/run/opipes-1.sock", ⟨["grep", "x"], .nil⟩, none⟩
        [⟨some ⟨"connection refused"⟩, none, (0, none)⟩,
          ⟨some ⟨"connection refused"⟩, none, (0, none)⟩]
      = [.dial "/run/opipes-1.sock" false, .dial "/run/opipes-1.sock" false] ∧
    ¬ (∀ (r : ReaderPipe) (envs : List ReadEnv), r.conn = none →
        (readTrace r envs).countP ConnEvent.isDial ≤ 1) := by
  refine ⟨by decide, fun h => ?_⟩
  have h1 := h ⟨"/run/opipes-1.sock", ⟨["grep", "x"], .nil⟩, none⟩
    [⟨some ⟨"connection refused"⟩, none, (0, none)⟩,
      ⟨some ⟨"connection refused"⟩, none, (0, none)⟩] rfl
  revert h1
  decide

/-- C8, amended: for every sequence of `Read` calls on an endpoint that starts without a
connection and every sequence of dial, write and read outcomes: no event precedes the first
`Read`; at most one dial succeeds; a dial is attempted only while every earlier event is a failed
dial, so at most one dial is attempted when no dial fails; `Write` is called with the
document of the stage at most once; and every read from the connection comes after that call.
The endpoint `NewPipe` builds starts without a connection. -/
theorem readTrace_single_connection (r : ReaderPipe) (envs : List ReadEnv)
    (hfresh : r.conn = none) :
    (∀ (o : OPipes) (env : PipeEnv) (pipe : OPipe) (rp : ReaderPipe),
      (NewPipe o env).ret = .ok (some pipe) → pipe.Reader = .readerPipe rp → rp.conn = none) ∧
    readTrace r [] = [] ∧
    (readTrace r envs).countP ConnEvent.isDialOk ≤ 1 ∧
    (∀ (pre post : List ConnEvent) (a : String) (ok : Bool),
      readTrace r envs = pre ++ .dial a ok :: post → ∀ e ∈ pre, e = .dial r.address false) ∧
    ((∀ env ∈ envs, env.dialErr = none) → (readTrace r envs).countP ConnEvent.isDial ≤ 1) ∧
    (readTrace r envs).countP ConnEvent.isWriteDoc ≤ 1 ∧
    (∀ pre post : List ConnEvent,
      readTrace r envs = pre ++ .connRead :: post → .writeDoc r.writerPipeInfo ∈ pre) := by
  refine ⟨NewPipe_reader_not_connected, rfl, ?_⟩
  induction envs with
  | nil =>
    have h0 : readTrace r [] = [] := rfl
    rw [h0]
    refine ⟨by simp, ?_, by simp, by simp, ?_⟩
    · intro pre post a ok h
      simp at h
    · intro pre post h
      simp at h
  | cons env rest ih =>
    obtain ⟨ih1, ih2, -, ih4, ih5⟩ := ih
    cases hd : env.dialErr with
    | some err =>
      rw [readTrace_dial_failed r hfresh env err hd rest]
      refine ⟨?_, ?_, ?_, ?_, ?_⟩
      · simpa [List.countP_cons, ConnEvent.isDialOk] using ih1
      · intro pre post a ok h
        cases pre with
        | nil => simp
        | cons x pre1 =>
          simp only [List.cons_append, List.cons.injEq] at h
          intro e he
          rcases List.mem_cons.1 he with rfl | hmem
          · exact h.1.symm
          · exact ih2 pre1 post a ok h.2 e hmem
      · intro hall
        have := hall env (List.mem_cons_self _ _)
        rw [hd] at this
        cases this
      · simpa [List.countP_cons, ConnEvent.isWriteDoc] using ih4
      · intro pre post h
        cases pre with
        | nil => simp at h
        | cons x pre1 =>
          simp only [List.cons_append, List.cons.injEq] at h
          exact List.mem_cons_of_mem _ (ih5 pre1 post h.2)
    | none =>
      obtain ⟨m, hm⟩ := readTrace_dial_succeeded r hfresh env hd rest
      rw [hm]
      have hc1 : (List.replicate m ConnEvent.connRead).countP ConnEvent.isDialOk = 0 := by
        simp [List.countP_eq_zero, ConnEvent.isDialOk]
      have hc2 : (List.replicate m ConnEvent.connRead).countP ConnEvent.isDial = 0 := by
        simp [List.countP_eq_zero, ConnEvent.isDial]
      have hc3 : (List.replicate m ConnEvent.connRead).countP ConnEvent.isWriteDoc = 0 := by
        simp [List.countP_eq_zero, ConnEvent.isWriteDoc]
      refine ⟨?_, ?_, ?_, ?_, ?_⟩
      · simp [List.countP_cons, ConnEvent.isDialOk, hc1]
      · intro pre post a ok h
        cases pre with
        | nil => simp
        | cons x pre1 =>
          simp only [List.cons_append, List.cons.injEq] at h
          have hmem : ConnEvent.dial a ok
              ∈ ConnEvent.writeDoc r.writerPipeInfo :: List.replicate m ConnEvent.connRead := by
            rw [h.2]
            simp
          simp [List.mem_replicate] at hmem
      · intro _
        simp [List.countP_cons, ConnEvent.isDial, hc2]
      · simp [List.countP_cons, ConnEvent.isWriteDoc, hc3]
      · intro pre post h
        cases pre with
        | nil => simp at h
        | cons x pre1 =>
          simp only [List.cons_append, List.cons.injEq] at h
          cases pre1 with
          | nil => simp at h
          | cons y pre2 =>
            simp only [List.cons_append, List.cons.injEq] at h
            rw [← h.2.1]
            simp

/-- C8, amended, at an endpoint whose first dial fails and whose second dial succeeds, read
three times: the trace has two dials, of which one succeeds, then the document, then the reads
from the connection. -/
theorem readTrace_single_connection_witness :
    readTrace ⟨"/run/opipes-1.sock", ⟨["grep", "x"], .nil⟩, none⟩
        [⟨some ⟨"connection refused"⟩, none, (0, none)⟩, ⟨none, none, (4, none)⟩,
          ⟨none, none, (0, some ⟨"EOF"⟩)⟩]
      = [.dial "/run/opipes-1.sock" false, .dial "/run/opipes-1.sock" true,
          .writeDoc ⟨["grep", "x"], .nil⟩, .connRead, .connRead] ∧
    (readTrace ⟨"/run/opipes-1.sock", ⟨["grep", "x"], .nil⟩, none⟩
        [⟨some ⟨"connection refused"⟩, none, (0, none)⟩, ⟨none, none, (4, none)⟩,
          ⟨none, none, (0, some ⟨"EOF"⟩)⟩]).countP ConnEvent.isDialOk ≤ 1 :=
  ⟨by decide,
    (readTrace_single_connection ⟨"/run/opipes-1.sock", ⟨["grep", "x"], .nil⟩, none⟩
      [⟨some ⟨"connection refused"⟩, none, (0, none)⟩, ⟨none, none, (4, none)⟩,
        ⟨none, none, (0, some ⟨"EOF"⟩)⟩] rfl).2.2.1⟩

/-! ### Propagation of the downstream chain -/

theorem toArgvs_ofArgvs (argvs : List (List String)) :
    (WriterInfoPtr.ofArgvs argvs).toArgvs = argvs := by
  induction argvs with
  | nil => rfl
  | cons a rest ih => simp [WriterInfoPtr.ofArgvs, WriterInfoPtr.toArgvs, ih]

theorem sentDocument_readerPipe (address : String) (doc : WriterPipeInfo) :
    sentDocument (.readerPipe ⟨address, doc, none⟩) = some doc := by
  simp [sentDocument, Read, ReadEnv.success, List.findSome?]

theorem stageNewPipe_last (runDir : String) (upstream : Option String) (st : Stage)
    (decoded : Except GoError WriterPipeInfo) :
    ∃ (session : OPipes) (writer : Writer) (events : List Event),
      stageNewPipe runDir upstream st true decoded
        = some ⟨session,
            .ok (some ⟨(match upstream with
              | some a => .readerPipe ⟨a, ⟨st.argv, .nil⟩, none⟩
              | none => .stdin), writer, .nil⟩),
            events⟩ := by
  cases upstream <;>
    simp [stageNewPipe, stageSession, Init, NewPipe, NewPipe.writerSide, newWriterPipe]

theorem stageNewPipe_inner (runDir : String) (upstream : Option String) (st : Stage)
    (doc : WriterPipeInfo) :
    ∃ (session : OPipes) (writer : Writer) (events : List Event),
      stageNewPipe runDir upstream st false (.ok doc)
        = some ⟨session,
            .ok (some ⟨(match upstream with
              | some a => .readerPipe ⟨a, ⟨st.argv, doc.addr⟩, none⟩
              | none => .stdin), writer, doc.addr⟩),
            events⟩ := by
  cases upstream <;>
    simp [stageNewPipe, stageSession, Init, NewPipe, NewPipe.writerSide, newWriterPipe]

theorem pipelineFrom_head (runDir : String) (rest : List Stage) :
    ∀ (st : Stage) (upstream : Option String),
      ∃ (session : OPipes) (writer : Writer) (events : List Event),
        (pipelineFrom runDir upstream (st :: rest)).head?
          = some (some ⟨session,
              .ok (some ⟨(match upstream with
                | some a =>
                  .readerPipe ⟨a, ⟨st.argv, .ofArgvs (rest.map fun s => s.argv)⟩, none⟩
                | none => .stdin), writer, .ofArgvs (rest.map fun s => s.argv)⟩),
              events⟩) := by
  induction rest with
  | nil =>
    intro st upstream
    obtain ⟨session, writer, events, h⟩ :=
      stageNewPipe_last runDir upstream st (decodedFrom [])
    exact ⟨session, writer, events, by
      simp only [pipelineFrom, List.isEmpty_nil, List.head?_cons, h, List.map_nil,
        WriterInfoPtr.ofArgvs]⟩
  | cons st2 rest2 ih =>
    intro st upstream
    obtain ⟨session2, writer2, events2, h2⟩ :=
      ih st2 (some (socketAddress runDir st.randInt))
    have hdec : decodedFrom (pipelineFrom runDir (some (socketAddress runDir st.randInt))
        (st2 :: rest2)) = .ok ⟨st2.argv, .ofArgvs (rest2.map fun s => s.argv)⟩ := by
      simp only [decodedFrom, h2, sentDocument_readerPipe]
    obtain ⟨session, writer, events, h⟩ := stageNewPipe_inner runDir upstream st
      ⟨st2.argv, .ofArgvs (rest2.map fun s => s.argv)⟩
    refine ⟨session, writer, events, ?_⟩
    rw [pipelineFrom, List.head?_cons, hdec]
    simp only [List.isEmpty_cons, h, List.map_cons, WriterInfoPtr.ofArgvs, WriterPipeInfo.addr]

theorem pipelineFrom_observed (runDir : String) (stages : List Stage) :
    ∀ (upstream : Option String) (i : Nat), i < stages.length →
      ∃ (res : NewPipeResult) (pipe : OPipe),
        (pipelineFrom runDir upstream stages)[i]? = some (some res) ∧
        res.ret = .ok (some pipe) ∧
        pipe.WriterInfo = .ofArgvs ((stages.drop (i + 1)).map fun s => s.argv) ∧
        (upstream.isSome = true ∨ 0 < i →
          ∀ st, stages[i]? = some st →
            sentDocument pipe.Reader = some ⟨st.argv, pipe.WriterInfo⟩) := by
  induction stages with
  | nil => intro upstream i hi; simp at hi
  | cons st rest ih =>
    intro upstream i hi
    cases i with
    | zero =>
      obtain ⟨session, writer, events, h⟩ := pipelineFrom_head runDir rest st upstream
      rw [List.head?_eq_getElem?] at h
      refine ⟨_, _, h, rfl, ?_, ?_⟩
      · simp
      · intro hup st1 hst
        simp only [List.getElem?_cons_zero, Option.some.injEq] at hst
        subst hst
        cases upstream with
        | none => simp at hup
        | some a => exact sentDocument_readerPipe _ _
    | succ j =>
      have hj : j < rest.length := by simpa using hi
      obtain ⟨res, pipe, h1, h2, h3, h4⟩ :=
        ih (some (socketAddress runDir st.randInt)) j hj
      refine ⟨res, pipe, ?_, h2, ?_, ?_⟩
      · rw [pipelineFrom, List.getElem?_cons_succ]
        exact h1
      · simpa using h3
      · intro _ st1 hst
        rw [List.getElem?_cons_succ] at hst
        exact h4 (Or.inl rfl) st1 hst

theorem replaceArgsLoop_length (chain : WriterInfoPtr) (args : List String) :
    ∀ res out : List String,
      replaceArgsLoop chain res args = .ok out → out.length = res.length + args.length := by
  induction args with
  | nil =>
    intro res out h
    simp only [replaceArgsLoop, Except.ok.injEq] at h
    simp [← h]
  | cons arg rest ih =>
    intro res out h
    simp only [replaceArgsLoop] at h
    split at h
    · split at h
      · cases h
      · have := ih _ _ h
        simp at this ⊢
        omega
    · have := ih _ _ h
      simp at this ⊢
      omega

theorem runWrappedCmd_starts (actualArgs : List String) (env : BridgeEnv)
    (hargs : actualArgs ≠ []) (hin : env.stdinPipeErr = none)
    (hout : env.stdoutPipeErr = none) :
    .start actualArgs ∈ (runWrappedCmd actualArgs env).2 := by
  cases actualArgs with
  | nil => exact absurd rfl hargs
  | cons a rest =>
    simp only [runWrappedCmd, List.head?_cons, hin, hout]
    repeat' split
    all_goals simp

theorem runCmd_hands_chain (args : List String) (env : RunEnv) (hargs : args ≠ [])
    (init : InitResult) (hinit : Init none ⟨args.headD "", args⟩ env.init = .ok init)
    (pipe : OPipe) (hret : (NewPipe init.session env.pipe).ret = .ok (some pipe)) :
    runCmd args none env
      = match replaceArgs args pipe.WriterInfo with
        | .error p =>
          ⟨some (NewPipe init.session env.pipe).session, .error p,
            (NewPipe init.session env.pipe).events⟩
        | .ok actualArgs =>
          ⟨some (NewPipe init.session env.pipe).session,
            (runWrappedCmd actualArgs env.bridge).1,
            (NewPipe init.session env.pipe).events ++ (runWrappedCmd actualArgs env.bridge).2⟩ := by
  have hlen : ¬ args.length = 0 := by
    cases args with
    | nil => exact absurd rfl hargs
    | cons a rest => simp
  simp only [runCmd, hlen, if_false, hinit, hret]

theorem pipelineRunFrom_hands_chain (runDir : String) (bridge : Stage → BridgeEnv)
    (stages : List Stage) :
    ∀ (upstream : Option String) (i : Nat) (st : Stage) (res : NewPipeResult) (pipe : OPipe),
      stages[i]? = some st → st.argv ≠ [] →
      (pipelineFrom runDir upstream stages)[i]? = some (some res) →
      res.ret = .ok (some pipe) →
      (pipelineRunFrom runDir bridge upstream stages)[i]?
        = some (match replaceArgs st.argv pipe.WriterInfo with
          | .error p => ⟨some res.session, .error p, res.events⟩
          | .ok actualArgs =>
            ⟨some res.session, (runWrappedCmd actualArgs (bridge st)).1,
              res.events ++ (runWrappedCmd actualArgs (bridge st)).2⟩) := by
  induction stages with
  | nil => intro upstream i st res pipe hst; simp at hst
  | cons st0 rest ih =>
    intro upstream i st res pipe hst hargs hres hret
    cases i with
    | zero =>
      simp only [List.getElem?_cons_zero, Option.some.injEq] at hst
      subst hst
      simp only [pipelineFrom, List.getElem?_cons_zero, Option.some.injEq, stageNewPipe,
        stageSession, Init] at hres
      subst hres
      simp only [pipelineRunFrom, List.getElem?_cons_zero, Option.some.injEq]
      exact runCmd_hands_chain st0.argv
        (stageRunEnv runDir upstream st0 rest.isEmpty
          (decodedFrom (pipelineFrom runDir (some (socketAddress runDir st0.randInt)) rest))
          (bridge st0))
        hargs
        ⟨⟨st0.argv.headD "", st0.argv, upstream.isSome, !rest.isEmpty, false, false, false⟩,
          some (initLevel "")⟩
        rfl pipe hret
    | succ j =>
      rw [List.getElem?_cons_succ] at hst
      rw [pipelineFrom, List.getElem?_cons_succ] at hres
      rw [pipelineRunFrom, List.getElem?_cons_succ]
      exact ih _ j st res pipe hst hargs hres hret

/-- C1: in a linear pipeline of stages whose handshakes all succeed, where only the stdout of
the last stage is not a pipe and every other stage decodes the document the reader of its right
neighbour sends, the `WriterInfo` that `NewPipe` returns to stage `i` is the linked chain whose
nodes carry the argvs of the stages `i+1, ..., N` in that order, ended by a nil `Next`; the
document the reader of a stage `i > 0` sends is its own argv followed by that chain; and the
`runCmd` of stage `i` hands that same chain to `replaceArgs`: its result and events are those of
the `NewPipe` call followed by `runWrappedCmd` on `replaceArgs` of its argv and the chain of the
stages `i+1, ..., N`, so the command it starts carries the argv rewritten from that chain. -/
theorem pipeline_observed_chain (runDir : String) (stages : List Stage) (i : Nat)
    (hi : i < stages.length) :
    ∃ (res : NewPipeResult) (pipe : OPipe),
      (pipeline runDir stages)[i]? = some (some res) ∧
      res.ret = .ok (some pipe) ∧
      pipe.WriterInfo = .ofArgvs ((stages.drop (i + 1)).map fun s => s.argv) ∧
      pipe.WriterInfo.toArgvs = (stages.drop (i + 1)).map (fun s => s.argv) ∧
      (0 < i → ∀ st, stages[i]? = some st →
        sentDocument pipe.Reader = some ⟨st.argv, pipe.WriterInfo⟩) ∧
      (∀ (bridge : Stage → BridgeEnv) (st : Stage), stages[i]? = some st → st.argv ≠ [] →
        (pipelineRun runDir bridge stages)[i]?
          = some (match replaceArgs st.argv
                (.ofArgvs ((stages.drop (i + 1)).map fun s => s.argv)) with
            | .error p => ⟨some res.session, .error p, res.events⟩
            | .ok actualArgs =>
              ⟨some res.session, (runWrappedCmd actualArgs (bridge st)).1,
                res.events ++ (runWrappedCmd actualArgs (bridge st)).2⟩)) ∧
      (∀ (bridge : Stage → BridgeEnv) (st : Stage) (actualArgs : List String),
        stages[i]? = some st → st.argv ≠ [] →
        replaceArgs st.argv (.ofArgvs ((stages.drop (i + 1)).map fun s => s.argv))
          = .ok actualArgs →
        (bridge st).stdinPipeErr = none → (bridge st).stdoutPipeErr = none →
        ∃ run : RunResult,
          (pipelineRun runDir bridge stages)[i]? = some run ∧
          run.events = res.events ++ (runWrappedCmd actualArgs (bridge st)).2 ∧
          Event.start actualArgs ∈ run.events) := by
  obtain ⟨res, pipe, h1, h2, h3, h4⟩ := pipelineFrom_observed runDir stages none i hi
  have hrun : ∀ (bridge : Stage → BridgeEnv) (st : Stage), stages[i]? = some st →
      st.argv ≠ [] →
      (pipelineRun runDir bridge stages)[i]?
        = some (match replaceArgs st.argv
              (.ofArgvs ((stages.drop (i + 1)).map fun s => s.argv)) with
          | .error p => ⟨some res.session, .error p, res.events⟩
          | .ok actualArgs =>
            ⟨some res.session, (runWrappedCmd actualArgs (bridge st)).1,
              res.events ++ (runWrappedCmd actualArgs (bridge st)).2⟩) := by
    intro bridge st hst hargs
    rw [← h3]
    exact pipelineRunFrom_hands_chain runDir bridge stages none i st res pipe hst hargs h1 h2
  refine ⟨res, pipe, h1, h2, h3, by rw [h3, toArgvs_ofArgvs], fun hpos => h4 (Or.inr hpos),
    hrun, ?_⟩
  intro bridge st actualArgs hst hargs hrep hin hout
  have hne : actualArgs ≠ [] := by
    have hlen := replaceArgsLoop_length _ st.argv [] actualArgs hrep
    intro hnil
    rw [hnil] at hlen
    cases hq : st.argv with
    | nil => exact hargs hq
    | cons a rest => rw [hq] at hlen; simp at hlen
  have h := hrun bridge st hst hargs
  rw [hrep] at h
  exact ⟨_, h, rfl, List.mem_append_right _ (runWrappedCmd_starts actualArgs _ hne hin hout)⟩

/-- C1 at the three stages `aws logs {awsLogFilter} | grep ERROR | wc -l`: the first stage
observes the chain of `grep ERROR` and `wc -l` and starts `aws logs` with the filter `" ERROR"`
rewritten from that chain; the last stage observes the empty chain. -/
theorem pipeline_observed_chain_witness :
    (∃ (res : NewPipeResult) (pipe : OPipe),
      (pipeline "/run/user/1000"
        [⟨["aws", "logs", "{awsLogFilter}"], 11⟩, ⟨["grep", "ERROR"], 22⟩, ⟨["wc", "-l"], 33⟩])[0]?
        = some (some res) ∧
      res.ret = .ok (some pipe) ∧
      pipe.WriterInfo = .ptr ["grep", "ERROR"] (.ptr ["wc", "-l"] .nil) ∧
      pipe.WriterInfo.toArgvs = [["grep", "ERROR"], ["wc", "-l"]] ∧
      ∃ run : RunResult,
        (pipelineRun "/run/user/1000" (fun _ => ⟨none, none, none, none, none, .notFinished⟩)
          [⟨["aws", "logs", "{awsLogFilter}"], 11⟩, ⟨["grep", "ERROR"], 22⟩,
            ⟨["wc", "-l"], 33⟩])[0]? = some run ∧
        Event.start ["aws", "logs", " ERROR"] ∈ run.events) ∧
    (∃ (res : NewPipeResult) (pipe : OPipe),
      (pipeline "/run/user/1000"
        [⟨["aws", "logs", "{awsLogFilter}"], 11⟩, ⟨["grep", "ERROR"], 22⟩, ⟨["wc", "-l"], 33⟩])[2]?
        = some (some res) ∧
      res.ret = .ok (some pipe) ∧
      pipe.WriterInfo = .nil ∧
      pipe.WriterInfo.toArgvs = []) :=
  have hA := pipeline_observed_chain "/run/user/1000"
    [⟨["aws", "logs", "{awsLogFilter}"], 11⟩, ⟨["grep", "ERROR"], 22⟩, ⟨["wc", "-l"], 33⟩] 0
    (by decide)
  have hC := pipeline_observed_chain "/run/user/1000"
    [⟨["aws", "logs", "{awsLogFilter}"], 11⟩, ⟨["grep", "ERROR"], 22⟩, ⟨["wc", "-l"], 33⟩] 2
    (by decide)
  let ⟨resA, pipeA, a1, a2, a3, a4, _, _, a7⟩ := hA
  let ⟨resC, pipeC, c1, c2, c3, c4, _⟩ := hC
  let ⟨run, r1, _, r3⟩ := a7 (fun _ => ⟨none, none, none, none, none, .notFinished⟩)
    ⟨["aws", "logs", "{awsLogFilter}"], 11⟩ ["aws", "logs", " ERROR"] rfl (by decide)
    (by decide) rfl rfl
  ⟨⟨resA, pipeA, a1, a2, a3, a4, run, r1, r3⟩, ⟨resC, pipeC, c1, c2, c3, c4⟩⟩

end Opipes
